import Mathlib

/-
Verification of the instruction-emission layer in `ssa/stmt_builder.go`
(package `ssa` of llgo).

The Go code drives an LLVM IR builder.  We shallowly embed the parts the
claims are about:

* an LLVM physical basic block is a list of instructions; a physical block
  handle (`llvm.BasicBlock`) is a natural-number id into a module;
* an LLVM instruction handle (`llvm.Value` used as an instruction) is
  modelled positionally: a block id together with an index into the block's
  instruction list.  The null handle (what `FirstInstruction`,
  `LastInstruction` and `NextInstruction` return when they run off a block)
  is modelled by `Option.none`; LLVM C-API operations applied to a null
  instruction handle (`InstructionOpcode`, `SetInsertPointBefore`) are fatal
  (a null dereference inside the backend) and are modelled by
  `Except.error`;
* Go `panic` is likewise modelled by `Except.error` carrying the panic
  message;
* pointer identity of `*aFunction` values is modelled by a numeric id kept
  inside `Function`.

Helpers of the repository that are referenced by `stmt_builder.go` but whose
bodies are outside the excerpt (`checkExpr`, `llvmParams`, `getField`,
`Call`, `rtFunc`) are modelled from the spec; each carries a doc comment
saying so.  Debug logging (`debugInstr`, `log.Printf`) only writes to the
log and emits no instruction; it is not modelled.
-/

namespace LlgoSsa

/-- Physical (LLVM) basic-block handle: an id into the module. -/
abbrev PhysBlockId := Nat

/-- Source-level (Go) type attached to values.  Only what the claims need:
a name for ordinary types, and the arity for multi-result tuple types. -/
inductive GoType where
  | named (s : String)
  | tuple (arity : Nat)
  deriving DecidableEq, Repr

/-- Backend (LLVM) value.  `coerced v t` is the result of the coercion
operation applied to `v` with target type `t`; `extracted v i` is component
`i` of the aggregate `v`. -/
inductive LLValue where
  | named (s : String)
  | runtimeFunc (s : String)
  | coerced (v : LLValue) (target : GoType)
  | extracted (v : LLValue) (i : Nat)
  deriving DecidableEq, Repr

/-- Models `llvm.Value.Name()`: named values report their symbol name,
freshly created instruction results are unnamed. -/
def LLValue.Name : LLValue → String
  | .named s => s
  | .runtimeFunc s => s
  | .coerced _ _ => ""
  | .extracted _ _ => ""

/-- Backend instructions, as emitted by the builder calls appearing in
`stmt_builder.go` (`CreateBr`, `CreateCondBr`, `CreateRetVoid`, `CreateRet`,
`CreateAggregateRet`, `CreateUnreachable`, call emission), plus `other` for
arbitrary pre-existing instructions found in scanned blocks. -/
inductive Instr where
  | call (callee : LLValue) (args : List LLValue)
  | br (dest : PhysBlockId)
  | condBr (cond : LLValue) (thenDest elseDest : PhysBlockId)
  | retVoid
  | ret (v : LLValue)
  | aggregateRet (vs : List LLValue)
  | unreachable
  | other (op : Nat) (ops : List LLValue)
  deriving DecidableEq, Repr

/-- LLVM instruction opcodes, as far as `notInit` distinguishes them: its
switch has a single `case llvm.Call`; every other opcode takes the default
branch. -/
inductive Opcode where
  | Call
  | Br
  | CondBr
  | Ret
  | Unreachable
  | Other (n : Nat)
  deriving DecidableEq, Repr

/-- Models `llvm.Value.InstructionOpcode()`. -/
def Instr.opcode : Instr → Opcode
  | .call _ _ => .Call
  | .br _ => .Br
  | .condBr _ _ _ => .CondBr
  | .retVoid => .Ret
  | .ret _ => .Ret
  | .aggregateRet _ => .Ret
  | .unreachable => .Unreachable
  | .other n _ => .Other n

/-- Operand list of an instruction.  For a call instruction LLVM lists the
arguments first and the callee as the last operand, so a call with exactly
one operand is a zero-argument call whose operand 0 is the callee. -/
def Instr.operands : Instr → List LLValue
  | .call callee args => args ++ [callee]
  | .br _ => []
  | .condBr c _ _ => [c]
  | .retVoid => []
  | .ret v => [v]
  | .aggregateRet vs => vs
  | .unreachable => []
  | .other _ ops => ops

/-- Models `llvm.Value.OperandsCount()`. -/
def Instr.OperandsCount (i : Instr) : Nat :=
  i.operands.length

/-- Models `llvm.Value.Operand(n)`; only used at in-range indices. -/
def Instr.Operand (i : Instr) (n : Nat) : LLValue :=
  i.operands.getD n (.named "")

/-- Models Go `strings.HasSuffix s suffix` (byte-level suffix test; for the
ASCII suffix `".init"` the character-level test coincides). -/
def stringsHasSuffix (s suffix : String) : Bool :=
  suffix.data.reverse.isPrefixOf s.data.reverse

/-- Embeds `notInit` (stmt_builder.go:120).  True when `instr` is NOT an
initializer call: a call instruction with exactly one operand whose
referenced symbol name ends in `".init"` is an initializer call; everything
else is not. -/
def notInit (instr : Instr) : Bool :=
  match instr.opcode with
  | .Call =>
    if instr.OperandsCount == 1 then
      !(stringsHasSuffix (instr.Operand 0).Name ".init")
    else
      true
  | _ => true

/-- The scan loop of `instrAfterInit`: `rest` is the list of instructions
strictly after the current one.  `NextInstruction` on the last instruction
returns the null handle, and `notInit` applied to the null handle
dereferences it inside `InstructionOpcode` — a fatal backend fault, modelled
as an error. -/
def afterInitScan : List Instr → Nat → Except String Nat
  | [], _ => .error "invalid instruction"
  | i :: rest, k => if notInit i then .ok k else afterInitScan rest (k + 1)

/-- Embeds `instrAfterInit` (stmt_builder.go:110), positionally: given the
instruction list of the entry physical block, returns the index of the
resolved instruction.  The code takes `FirstInstruction`, then advances with
`NextInstruction` BEFORE testing `notInit`, so index 0 is never tested; on
an empty block `FirstInstruction` is the null handle and `NextInstruction`
dereferences it. -/
def instrAfterInit : List Instr → Except String Nat
  | [] => .error "invalid instruction"
  | _ :: rest => afterInitScan rest 1

/-- Function identity (`Function = *aFunction`): pointer identity is the
numeric id; `resultTypes` models `raw.Type.(*types.Signature).Results()`. -/
structure Function where
  id : Nat
  resultTypes : List GoType
  deriving DecidableEq, Repr

/-- Package handle (only its identity matters here). -/
structure Package where
  id : Nat
  deriving DecidableEq, Repr

/-- Embeds `aBasicBlock` (stmt_builder.go:31): a logical (Go SSA) block,
physically realized by a chain of LLVM blocks from `first` to `last`. -/
structure aBasicBlock where
  first : PhysBlockId
  last : PhysBlockId
  fn : Function
  idx : Int
  deriving DecidableEq, Repr

/-- BasicBlock represents a basic block in a function. -/
abbrev BasicBlock := aBasicBlock

/-- Embeds `BasicBlock.Parent` (stmt_builder.go:42). -/
def aBasicBlock.Parent (p : BasicBlock) : Function :=
  p.fn

/-- Embeds `BasicBlock.Index` (stmt_builder.go:47). -/
def aBasicBlock.Index (p : BasicBlock) : Int :=
  p.idx

/-- Insertion cursor of the underlying `llvm.Builder`: positioned inside
physical block `block`, inserting before position `pos` (`pos` equal to the
block's length means at the end). -/
structure Cursor where
  block : PhysBlockId
  pos : Nat
  deriving DecidableEq, Repr

/-- Embeds `aBuilder` (stmt_builder.go:53).  `impl` is the state of the
`llvm.Builder` that the claims are about: its insertion point (none until
first positioned).  The `Prog` field is never used by the embedded
operations and is omitted. -/
structure aBuilder where
  impl : Option Cursor
  blk : Option BasicBlock
  Func : Function
  Pkg : Package
  deriving DecidableEq, Repr

/-- Builder represents a builder for creating instructions in a function. -/
abbrev Builder := aBuilder

/-- The backend module: physical blocks, indexed by `PhysBlockId`. -/
structure Module where
  blocks : List (List Instr)
  deriving DecidableEq, Repr

/-- Instruction list of a physical block. -/
def Module.instrsOf (m : Module) (pb : PhysBlockId) : List Instr :=
  m.blocks.getD pb []

/-- Models `llvm.BasicBlock.FirstInstruction()` positionally: the null
handle (empty block) is `none`. -/
def firstInstructionIdx (bs : List Instr) : Option Nat :=
  if bs.isEmpty then none else some 0

/-- Models `llvm.BasicBlock.LastInstruction()` positionally. -/
def lastInstructionIdx (bs : List Instr) : Option Nat :=
  if bs.isEmpty then none else some (bs.length - 1)

/-- Embeds `type InsertPoint int` (stmt_builder.go:78). -/
abbrev InsertPoint := Int

/-- Embeds the `iota` constant `AtEnd` (stmt_builder.go:81). -/
def AtEnd : InsertPoint := 0

/-- Embeds the `iota` constant `AtStart`. -/
def AtStart : InsertPoint := 1

/-- Embeds the `iota` constant `BeforeLast`. -/
def BeforeLast : InsertPoint := 2

/-- Embeds the `iota` constant `afterInit`. -/
def afterInit : InsertPoint := 3

/-- The insertion-point resolution performed by the `switch pos` of
`SetBlockEx` (stmt_builder.go:92): the cursor the `llvm.Builder` is
positioned at for each policy.
* `AtEnd` — `SetInsertPointAtEnd(blk.last)`: after the last instruction;
* `AtStart` — `SetInsertPointBefore(blk.first.FirstInstruction())`: before
  instruction 0; on an empty block `FirstInstruction` is the null handle
  and `SetInsertPointBefore` dereferences it (fatal, modelled as an error);
* `BeforeLast` — `SetInsertPointBefore(blk.last.LastInstruction())`;
* `afterInit` — `SetInsertPointBefore(instrAfterInit(blk.first))`;
* any other value — `panic("SetBlockEx: invalid pos")`. -/
def resolveInsertPoint (m : Module) (blk : BasicBlock) (pos : InsertPoint) :
    Except String Cursor :=
  if pos = AtEnd then
    .ok ⟨blk.last, (m.instrsOf blk.last).length⟩
  else if pos = AtStart then
    match firstInstructionIdx (m.instrsOf blk.first) with
    | none => .error "invalid instruction"
    | some i => .ok ⟨blk.first, i⟩
  else if pos = BeforeLast then
    match lastInstructionIdx (m.instrsOf blk.last) with
    | none => .error "invalid instruction"
    | some i => .ok ⟨blk.last, i⟩
  else if pos = afterInit then
    match instrAfterInit (m.instrsOf blk.first) with
    | .ok k => .ok ⟨blk.first, k⟩
    | .error e => .error e
  else
    .error "SetBlockEx: invalid pos"

/-- Embeds `Builder.SetBlockEx` (stmt_builder.go:88): checks the block's
owning function, positions the builder per the policy `pos`, and — only if
positioning succeeded — updates the current block when `setBlk`.  Panics
are `Except.error` with the panic message. -/
def SetBlockEx (m : Module) (b : Builder) (blk : BasicBlock) (pos : InsertPoint)
    (setBlk : Bool) : Except String Builder :=
  if b.Func ≠ blk.fn then .error "mismatched function"
  else
    match resolveInsertPoint m blk pos with
    | .ok c => .ok { b with impl := some c, blk := if setBlk then some blk else b.blk }
    | .error e => .error e

/-- Embeds `Builder.SetBlock` (stmt_builder.go:70): `SetBlockEx(blk, AtEnd,
true)` (the debug log writes no instruction and is not modelled). -/
def SetBlock (m : Module) (b : Builder) (blk : BasicBlock) : Except String Builder :=
  SetBlockEx m b blk AtEnd true

/-- Typed value (`Expr = aExpr`): a backend value paired with its
source-level type.  The Go field `Type` is embedded; here it is `ty`. -/
structure Expr where
  impl : LLValue
  ty : GoType
  deriving DecidableEq, Repr

/-- Modelled from the spec: `checkExpr` (referenced at stmt_builder.go:178
but defined outside the excerpt) is the value-coercion operation — it
"converts a typed value to a target type following the source language's
assignment/conversion rules" (spec section 6).  The coercion is recorded
explicitly on the backend value. -/
def checkExpr (v : Expr) (raw : GoType) (b : Builder) : Expr :=
  ⟨.coerced v.impl raw, raw⟩

/-- Modelled from the spec: `llvmParams` (called at stmt_builder.go:182 but
defined outside the excerpt) packs the argument values "in declared order,
each element independently coerced to its corresponding declared type"
(spec section 4.4); argument `i` is coerced to the declared type at index
`base + i`, and a missing declared type (arity mismatch) is a fatal index
error. -/
def llvmParams (base : Nat) (args : List Expr) (params : List GoType) (b : Builder) :
    Except String (List LLValue) :=
  match args with
  | [] => .ok []
  | v :: rest =>
    match params.get? base with
    | none => .error "index out of range"
    | some t =>
      match llvmParams (base + 1) rest params b with
      | .error e => .error e
      | .ok vs => .ok ((checkExpr v t b).impl :: vs)

/-- Embeds `Builder.Return` (stmt_builder.go:161).  Emission operations
return the builder together with the list of instructions they append at
the cursor, in order.  `Results().At(0)` on an empty result tuple is a
fatal index error. -/
def Return (b : Builder) (results : List Expr) : Except String (Builder × List Instr) :=
  match results with
  | [] => .ok (b, [.retVoid])
  | [res] =>
    match b.Func.resultTypes.get? 0 with
    | none => .error "index out of range"
    | some raw => .ok (b, [.ret (checkExpr res raw b).impl])
  | _ =>
    match llvmParams 0 results b.Func.resultTypes b with
    | .error e => .error e
    | .ok vals => .ok (b, [.aggregateRet vals])

/-- Modelled from the spec: `Builder.Call` (called at stmt_builder.go:136
and 157 but defined outside the excerpt).  Its contract in this layer is
"purely emit a call with these arguments" (spec section 4.5): exactly one
call instruction with the given callee and arguments. -/
def Call (b : Builder) (fn : Expr) (args : List Expr) : Builder × List Instr :=
  (b, [.call fn.impl (args.map Expr.impl)])

/-- Modelled from the spec: `Package.rtFunc` (called at stmt_builder.go:136
but defined outside the excerpt) is "a runtime-function lookup by logical
name returning a callable typed value" (spec section 6). -/
def rtFunc (p : Package) (name : String) : Expr :=
  ⟨.runtimeFunc name, .named name⟩

/-- Embeds `Builder.Panic` (stmt_builder.go:132): a call to the runtime
panic-dispatch function `TracePanic` with `v`, then `CreateUnreachable`. -/
def Panic (b : Builder) (v : Expr) : Builder × List Instr :=
  let r := Call b (rtFunc b.Pkg "TracePanic") [v]
  (r.1, r.2 ++ [.unreachable])

/-- Embeds `Builder.Unreachable` (stmt_builder.go:141). -/
def Unreachable (b : Builder) : Builder × List Instr :=
  (b, [.unreachable])

/-- Embeds `Builder.Go` (stmt_builder.go:153): the body is exactly
`b.Call(fn, args...)` (the debug log emits no instruction). -/
def Go (b : Builder) (fn : Expr) (args : List Expr) : Builder × List Instr :=
  Call b fn args

/-- Modelled from the spec: `Builder.getField` (called at stmt_builder.go:199
but defined outside the excerpt) "yields the component at `index`" of a
multi-result value; an index outside the arity of the underlying
multi-result type is a fatal invariant violation (spec section 4.6).
Tuple types are modelled by their arity only. -/
def getField (b : Builder) (x : Expr) (i : Nat) : Except String (Builder × Expr) :=
  match x.ty with
  | .tuple n => if i < n then .ok (b, ⟨.extracted x.impl i, .named ""⟩) else .error "index out of range"
  | _ => .error "not a tuple"

/-- Embeds `Builder.Extract` (stmt_builder.go:195): `return b.getField(x, i)`. -/
def Extract (b : Builder) (x : Expr) (i : Nat) : Except String (Builder × Expr) :=
  getField b x i

/-- Embeds `Builder.Jump` (stmt_builder.go:203): `CreateBr(jmpb.first)`. -/
def Jump (b : Builder) (jmpb : BasicBlock) : Except String (Builder × List Instr) :=
  if b.Func ≠ jmpb.fn then .error "mismatched function"
  else .ok (b, [.br jmpb.first])

/-- Embeds `Builder.If` (stmt_builder.go:214):
`CreateCondBr(cond.impl, thenb.first, elseb.first)`. -/
def If (b : Builder) (cond : Expr) (thenb elseb : BasicBlock) :
    Except String (Builder × List Instr) :=
  if b.Func ≠ thenb.fn ∨ b.Func ≠ elseb.fn then .error "mismatched function"
  else .ok (b, [.condBr cond.impl thenb.first elseb.first])

/-- Embeds `type Phi struct { Expr }` (stmt_builder.go:227). -/
structure Phi where
  toExpr : Expr
  deriving DecidableEq, Repr

/-- Embeds `llvmPredBlocks` (stmt_builder.go:241): the terminating (last)
physical fragment of each predecessor logical block. -/
def llvmPredBlocks (preds : List BasicBlock) : List PhysBlockId :=
  preds.map (fun v => v.last)

/-- Go `for i, x := range xs` with an index-aware body: maps `f` over the
list, feeding it the position starting at `i0`. -/
def mapIdxFrom (f : Nat → BasicBlock → LLValue) (i0 : Nat) : List BasicBlock → List LLValue
  | [] => []
  | blk :: rest => f i0 blk :: mapIdxFrom f (i0 + 1) rest

/-- Embeds `Phi.AddIncoming` (stmt_builder.go:232).  The backend call
`p.impl.AddIncoming(vals, bs)` registers the incoming edges
`(vals[i], bs[i])`; the function returns that list of registered edges.
There is no function-identity check in this operation. -/
def AddIncoming (p : Phi) (b : Builder) (preds : List BasicBlock)
    (f : Nat → BasicBlock → Expr) : List (LLValue × PhysBlockId) :=
  let bs := llvmPredBlocks preds
  let vals := mapIdxFrom (fun i blk => (f i blk).impl) 0 preds
  vals.zip bs

/-- Modelled from the spec: a block's "physical extent can grow (new
physical blocks appended before/after) as instructions are inserted"
(spec section 3); the emission code performing this mutation is outside
the excerpt.  Growth rewrites only the `first`/`last` fragment handles. -/
def growExtent (blk : BasicBlock) (newFirst newLast : PhysBlockId) : BasicBlock :=
  { blk with first := newFirst, last := newLast }

/-- Any finite sequence of physical-extent changes, applied in order. -/
def applyGrows (blk : BasicBlock) : List (PhysBlockId × PhysBlockId) → BasicBlock
  | [] => blk
  | u :: us => applyGrows (growExtent blk u.1 u.2) us

/-! Concrete sample data, used by witnesses and counterexamples. -/

/-- A function with no declared results. -/
def fnA : Function := ⟨0, []⟩

/-- A second, distinct function. -/
def fnB : Function := ⟨1, []⟩

/-- A function with one declared result type. -/
def fnOne : Function := ⟨2, [.named "T1"]⟩

/-- A function with two declared result types. -/
def fnTwo : Function := ⟨3, [.named "T1", .named "T2"]⟩

/-- A package handle. -/
def pkgA : Package := ⟨0⟩

/-- A builder bound to `fnA`. -/
def bA : Builder := ⟨none, none, fnA, pkgA⟩

/-- A builder bound to `fnOne`. -/
def bOne : Builder := ⟨none, none, fnOne, pkgA⟩

/-- A builder bound to `fnTwo`. -/
def bTwo : Builder := ⟨none, none, fnTwo, pkgA⟩

/-- A zero-argument call whose single operand (the callee) is named
`"main.init"`: an initializer-prologue call. -/
def initCallInstr : Instr := .call (.named "main.init") []

/-- A non-call instruction (a store, say): not an initializer call. -/
def storeInstr : Instr := .other 32 [.named "x"]

/-- A logical block of `fnA`, physically realized by physical block 0. -/
def blkA : BasicBlock := ⟨0, 0, fnA, 0⟩

/-- A logical block of `fnB` — a foreign block for `bA`. -/
def blkB : BasicBlock := ⟨1, 1, fnB, 1⟩

/-- A module whose physical block 0 holds one initializer call followed by
a store. -/
def modInitStore : Module := ⟨[[initCallInstr, storeInstr]]⟩

/-- A module whose physical block 0 holds a store then an unreachable —
no initializer prologue at all. -/
def modStoreUnreach : Module := ⟨[[storeInstr, Instr.unreachable]]⟩

/-- A module whose physical block 0 holds a single initializer call and
nothing after it. -/
def modOnlyInit : Module := ⟨[[initCallInstr]]⟩

/-- A sample typed value. -/
def exprV : Expr := ⟨.named "v", .named "S"⟩

/-- Another sample typed value. -/
def exprW : Expr := ⟨.named "w", .named "S"⟩

/-- A sample phi node. -/
def phiA : Phi := ⟨⟨.named "phi0", .named "T1"⟩⟩

/-! Helper lemmas. -/

/-- The scan loop of `instrAfterInit` walks over a run of initializer
calls and stops at the first non-initializer instruction, reporting its
position. -/
lemma afterInitScan_prologue (rest : List Instr) (M : Instr) (hM : notInit M = true) :
    ∀ (p : List Instr) (k : Nat), (∀ i ∈ p, notInit i = false) →
      afterInitScan (p ++ M :: rest) k = .ok (k + p.length) := by
  intro p
  induction p with
  | nil => intro k _; simp [afterInitScan, hM]
  | cons q p ih =>
    intro k hq
    have hq0 : notInit q = false := hq q (by simp)
    have hrest : ∀ i ∈ p, notInit i = false := fun i hi => hq i (by simp [hi])
    simp only [List.cons_append, afterInitScan, hq0, Bool.false_eq_true, if_false,
      List.append_eq, ih (k + 1) hrest, List.length_cons]
    congr 1
    omega

/-- `instrAfterInit` on a block whose instructions are a nonempty run of
initializer calls followed by a non-initializer instruction `M` resolves to
the position of `M`. -/
lemma instrAfterInit_prologue (p : List Instr) (M : Instr) (rest : List Instr)
    (hp : p ≠ []) (hinit : ∀ i ∈ p, notInit i = false) (hM : notInit M = true) :
    instrAfterInit (p ++ M :: rest) = .ok p.length := by
  match p, hp with
  | q :: p, _ =>
    have hrest : ∀ i ∈ p, notInit i = false := fun i hi => hinit i (by simp [hi])
    simp only [List.cons_append, instrAfterInit, List.append_eq,
      afterInitScan_prologue rest M hM p 1 hrest, List.length_cons]
    congr 1
    omega

/-- When enough declared types are available, `llvmParams` produces exactly
the argument values coerced index-wise against the declared types from
`base` on. -/
lemma llvmParams_eq_zipWith (b : Builder) (ts : List GoType) :
    ∀ (args : List Expr) (base : Nat), base + args.length ≤ ts.length →
      llvmParams base args ts b =
        .ok (List.zipWith (fun r t => LLValue.coerced r.impl t) args (ts.drop base)) := by
  intro args
  induction args with
  | nil => intro base _; simp [llvmParams]
  | cons a rest ih =>
    intro base hlen
    have hlt : base < ts.length := by simp at hlen; omega
    have hdrop : ts.drop base = ts[base] :: ts.drop (base + 1) :=
      List.drop_eq_getElem_cons hlt
    have hget : ts.get? base = some ts[base] := by
      rw [List.get?_eq_getElem?, List.getElem?_eq_getElem hlt]
    have hle : base + 1 + rest.length ≤ ts.length := by simp at hlen; omega
    rw [llvmParams, hget, ih (base + 1) hle, hdrop, List.zipWith_cons_cons]
    simp [checkExpr]

/-! Claim theorems. -/

/-- C1 (amended): for an entry block whose physical instruction prefix is
exactly N ≥ 1 initializer calls (call instructions with exactly one
operand whose referenced symbol name ends in `".init"`) followed by a first
non-matching instruction `M`, `SetBlockEx` with the `afterInit` policy
positions the cursor exactly before `M` (at position `p.length`).  The
original claim's N = 0 case is false: see the counterexample — the scan
advances past the block's first instruction before classifying anything,
so for N = 0 the cursor does not land before the first instruction. -/
theorem setBlockEx_afterInit_lands_before_first_noninit
    (m : Module) (b : Builder) (blk : BasicBlock) (setBlk : Bool)
    (p rest : List Instr) (M : Instr)
    (hfn : b.Func = blk.fn)
    (hblk : m.instrsOf blk.first = p ++ M :: rest)
    (hp : p ≠ [])
    (hinit : ∀ i ∈ p, notInit i = false)
    (hM : notInit M = true) :
    SetBlockEx m b blk afterInit setBlk =
      .ok { b with impl := some ⟨blk.first, p.length⟩,
                   blk := if setBlk then some blk else b.blk } := by
  have hres : resolveInsertPoint m blk afterInit = .ok ⟨blk.first, p.length⟩ := by
    rw [resolveInsertPoint, hblk, instrAfterInit_prologue p M rest hp hinit hM]
    norm_num [AtEnd, AtStart, BeforeLast, afterInit]
  rw [SetBlockEx, if_neg (by simp [hfn]), hres]

/-- C1 witness: a block `[call @main.init(), store]` resolves to position 1,
exactly before the store. -/
theorem setBlockEx_afterInit_lands_before_first_noninit_witness :
    SetBlockEx modInitStore bA blkA afterInit true =
      .ok { bA with impl := some ⟨0, 1⟩, blk := some blkA } :=
  setBlockEx_afterInit_lands_before_first_noninit modInitStore bA blkA true
    [initCallInstr] [] storeInstr rfl rfl (by simp) (by decide) (by decide)

/-- C1 counterexample: a block with NO initializer prologue (N = 0), namely
`[store, unreachable]`.  The claim says `afterInit` then lands before the
block's first instruction (position 0, which is what `AtStart` resolves
to), but the code lands at position 1: the first instruction is skipped
without being classified. -/
theorem setBlockEx_afterInit_empty_prologue_not_at_start :
    SetBlockEx modStoreUnreach bA blkA afterInit true =
        .ok { bA with impl := some ⟨0, 1⟩, blk := some blkA }
      ∧ SetBlockEx modStoreUnreach bA blkA AtStart true =
        .ok { bA with impl := some ⟨0, 0⟩, blk := some blkA }
      ∧ (⟨0, 1⟩ : Cursor) ≠ (⟨0, 0⟩ : Cursor) :=
  ⟨rfl, rfl, by decide⟩

/-- C6 (code bug): on an entry block whose single instruction is an
initializer call — so that nothing remains after the prologue — the
`afterInit` scan walks off the end of the block: `NextInstruction` returns
the null handle and `notInit` dereferences it inside `InstructionOpcode`,
a fatal backend fault, instead of resolving a valid instruction-less
insertion position as the spec requires. -/
theorem setBlockEx_afterInit_all_init_is_fatal :
    SetBlockEx modOnlyInit bA blkA afterInit true = .error "invalid instruction"
      ∧ notInit initCallInstr = false :=
  ⟨rfl, by decide⟩

/-- C2 (amended): `SetBlockEx` (any policy, any flag), `SetBlock`, `Jump`
and `If` (a foreign block in either target position) all abort with
"mismatched function" when given a block whose parent function differs
from the builder's bound function.  The original claim also asserted this
for `Phi.AddIncoming`, which is false: see the counterexample —
`AddIncoming` performs no function-identity check. -/
theorem block_ops_mismatched_function_abort
    (m : Module) (b : Builder) (blk blk2 : BasicBlock) (pos : InsertPoint)
    (setBlk : Bool) (cond : Expr)
    (h : b.Func ≠ blk.fn) :
    SetBlockEx m b blk pos setBlk = .error "mismatched function"
      ∧ SetBlock m b blk = .error "mismatched function"
      ∧ Jump b blk = .error "mismatched function"
      ∧ If b cond blk blk2 = .error "mismatched function"
      ∧ If b cond blk2 blk = .error "mismatched function" := by
  refine ⟨?_, ?_, ?_, ?_, ?_⟩
  · rw [SetBlockEx, if_pos h]
  · rw [SetBlock, SetBlockEx, if_pos h]
  · rw [Jump, if_pos h]
  · rw [If, if_pos (Or.inl h)]
  · rw [If, if_pos (Or.inr h)]

/-- C2 witness: `bA` is bound to `fnA`, while `blkB` belongs to `fnB`. -/
theorem block_ops_mismatched_function_abort_witness :
    SetBlockEx modInitStore bA blkB AtEnd true = .error "mismatched function"
      ∧ SetBlock modInitStore bA blkB = .error "mismatched function"
      ∧ Jump bA blkB = .error "mismatched function"
      ∧ If bA exprV blkB blkA = .error "mismatched function"
      ∧ If bA exprV blkA blkB = .error "mismatched function" :=
  block_ops_mismatched_function_abort modInitStore bA blkB blkA AtEnd true exprV
    (by decide)

/-- C2 counterexample: `Phi.AddIncoming` invoked with a predecessor block
(`blkB`, owned by `fnB`) whose parent differs from the builder's bound
function (`bA` is bound to `fnA`) does not abort: it silently registers
the incoming edge and returns normally. -/
theorem addIncoming_cross_function_succeeds :
    AddIncoming phiA bA [blkB] (fun _ _ => exprV) = [(exprV.impl, blkB.last)]
      ∧ blkB.fn ≠ bA.Func :=
  ⟨rfl, by decide⟩

/-- C3: `Return` dispatches on argument arity — zero arguments emit a void
return; one argument is coerced to the function's single declared result
type and emitted as a single-value return; two or more arguments emit
exactly one aggregate return whose elements are, in argument order, each
argument independently coerced to the corresponding declared result type
(stated against the independent `List.zipWith` description). -/
theorem return_arity_dispatch
    (b0 b1 b2 : Builder) (t : GoType) (res r1 r2 : Expr) (rs : List Expr)
    (h1 : b1.Func.resultTypes = [t])
    (h2 : (r1 :: r2 :: rs).length = b2.Func.resultTypes.length) :
    Return b0 [] = .ok (b0, [.retVoid])
      ∧ Return b1 [res] = .ok (b1, [.ret (LLValue.coerced res.impl t)])
      ∧ Return b2 (r1 :: r2 :: rs) =
          .ok (b2, [.aggregateRet (List.zipWith (fun r ty => LLValue.coerced r.impl ty)
            (r1 :: r2 :: rs) b2.Func.resultTypes)]) := by
  refine ⟨rfl, ?_, ?_⟩
  · rw [Return, h1]
    rfl
  · rw [Return, llvmParams_eq_zipWith b2 b2.Func.resultTypes (r1 :: r2 :: rs) 0 (by omega),
      List.drop_zero]
    all_goals simp

/-- C3 witness: a void return on a no-result function, a coerced single
return on a one-result function, and an aggregate return with element-wise
coercion on a two-result function. -/
theorem return_arity_dispatch_witness :
    Return bA [] = .ok (bA, [.retVoid])
      ∧ Return bOne [exprV] =
          .ok (bOne, [.ret (LLValue.coerced exprV.impl (.named "T1"))])
      ∧ Return bTwo [exprV, exprW] =
          .ok (bTwo, [.aggregateRet (List.zipWith (fun r ty => LLValue.coerced r.impl ty)
            [exprV, exprW] bTwo.Func.resultTypes)]) :=
  return_arity_dispatch bA bOne bTwo (.named "T1") exprV exprV exprW []
    (by decide) (by decide)

/-- C4: `Panic(v)` emits exactly one call instruction — to the runtime
panic-dispatch function `TracePanic`, with `v` as its single argument —
immediately followed by exactly one unreachable terminator, and nothing
after that. -/
theorem panic_emits_call_then_unreachable (b : Builder) (v : Expr) :
    Panic b v =
      (b, [.call (LLValue.runtimeFunc "TracePanic") [v.impl], .unreachable]) :=
  rfl

/-- C5: `AddIncoming` with `preds = [B1, B2]` and incoming values produced
by `valueOf` registers exactly the backend edges
`(valueOf 0 B1, B1.last)` and `(valueOf 1 B2, B2.last)` — each value wired
against its predecessor's terminating (last) physical fragment — and,
as a multiset (order-independent, content-exact), the edge set is exactly
those two edges. -/
theorem addIncoming_two_preds_exact_edges
    (p : Phi) (b : Builder) (B1 B2 : BasicBlock) (valueOf : Nat → BasicBlock → Expr) :
    AddIncoming p b [B1, B2] valueOf =
        [((valueOf 0 B1).impl, B1.last), ((valueOf 1 B2).impl, B2.last)]
      ∧ (AddIncoming p b [B1, B2] valueOf : Multiset (LLValue × PhysBlockId)) =
        {((valueOf 0 B1).impl, B1.last), ((valueOf 1 B2).impl, B2.last)} :=
  ⟨rfl, rfl⟩

/-- C7: `Go(fn, args...)` is `b.Call(fn, args...)` — the task launch emits
exactly the same backend instruction sequence (and builder state) as a
direct call emission; there is no structurally different code path. -/
theorem go_emits_same_as_call (b : Builder) (fn : Expr) (args : List Expr) :
    Go b fn args = Call b fn args :=
  rfl

/-- C8: for every block and every insertion-point policy value outside the
recognized set `{AtEnd, AtStart, BeforeLast, afterInit}`, `SetBlockEx`
never returns normally; when the block's owning function matches (so the
function check does not fire first), the abort message is the descriptive
`"SetBlockEx: invalid pos"` of the default switch branch. -/
theorem setBlockEx_invalid_pos_aborts
    (m : Module) (b : Builder) (blk : BasicBlock) (pos : InsertPoint) (setBlk : Bool)
    (h0 : pos ≠ AtEnd) (h1 : pos ≠ AtStart) (h2 : pos ≠ BeforeLast)
    (h3 : pos ≠ afterInit) :
    (∀ b2, SetBlockEx m b blk pos setBlk ≠ .ok b2)
      ∧ (b.Func = blk.fn →
          SetBlockEx m b blk pos setBlk = .error "SetBlockEx: invalid pos") := by
  have hres : resolveInsertPoint m blk pos = .error "SetBlockEx: invalid pos" := by
    rw [resolveInsertPoint, if_neg h0, if_neg h1, if_neg h2, if_neg h3]
  constructor
  · intro b2
    rw [SetBlockEx]
    by_cases hfn : b.Func ≠ blk.fn
    · rw [if_pos hfn]
      exact fun hcontra => Except.noConfusion hcontra
    · rw [if_neg hfn, hres]
      exact fun hcontra => Except.noConfusion hcontra
  · intro hfn
    rw [SetBlockEx, if_neg (by simp [hfn]), hres]

/-- C8 witness: policy value 4 (one past `afterInit`) aborts with the
descriptive message. -/
theorem setBlockEx_invalid_pos_aborts_witness :
    (∀ b2, SetBlockEx modOnlyInit bA blkA 4 true ≠ .ok b2)
      ∧ (bA.Func = blkA.fn →
          SetBlockEx modOnlyInit bA blkA 4 true = .error "SetBlockEx: invalid pos") :=
  setBlockEx_invalid_pos_aborts modOnlyInit bA blkA 4 true
    (by decide) (by decide) (by decide) (by decide)

/-- C9: a logical block's `Index()` and `Parent()` are constant: the
emission operations of this layer never assign a block's `idx` or `fn`
fields (they only read blocks), and any number of physical-extent changes
— the only block mutation in the design, which rewrites the
`first`/`last` fragment handles — leaves `Parent` and `Index` unchanged. -/
theorem block_identity_stable
    (blk : BasicBlock) (us : List (PhysBlockId × PhysBlockId)) :
    (applyGrows blk us).Parent = blk.Parent ∧ (applyGrows blk us).Index = blk.Index := by
  induction us generalizing blk with
  | nil => exact ⟨rfl, rfl⟩
  | cons u us ih =>
    rw [applyGrows]
    exact ih (growExtent blk u.1 u.2)

/-- C10: the emission operations `Jump`, `If`, `Return`, `Panic`,
`Unreachable` and `Extract` leave the builder's current-block binding
(`blk`) unchanged on every path; `SetBlockEx` with `setBlk = false` leaves
it unchanged, and the current block is modified only by `SetBlock`, or by
`SetBlockEx` when `setBlk` is true, which bind it to the given block. -/
theorem emission_preserves_current_block
    (m : Module) (b : Builder) (blk jb tb eb : BasicBlock) (cond v x : Expr)
    (rs : List Expr) (i : Nat) (pos : InsertPoint) :
    (Jump b jb).map (fun r => r.1.blk) = (Jump b jb).map (fun _ => b.blk)
      ∧ (If b cond tb eb).map (fun r => r.1.blk) = (If b cond tb eb).map (fun _ => b.blk)
      ∧ (Return b rs).map (fun r => r.1.blk) = (Return b rs).map (fun _ => b.blk)
      ∧ (Panic b v).1.blk = b.blk
      ∧ (Unreachable b).1.blk = b.blk
      ∧ (Extract b x i).map (fun r => r.1.blk) = (Extract b x i).map (fun _ => b.blk)
      ∧ (SetBlockEx m b blk pos false).map aBuilder.blk =
          (SetBlockEx m b blk pos false).map (fun _ => b.blk)
      ∧ (SetBlockEx m b blk pos true).map aBuilder.blk =
          (SetBlockEx m b blk pos true).map (fun _ => some blk)
      ∧ (SetBlock m b blk).map aBuilder.blk =
          (SetBlock m b blk).map (fun _ => some blk) := by
  refine ⟨?_, ?_, ?_, rfl, rfl, ?_, ?_, ?_, ?_⟩
  · rw [Jump]
    split <;> rfl
  · rw [If]
    split <;> rfl
  · rcases rs with _ | ⟨r, _ | ⟨r2, rest⟩⟩
    · rfl
    · rw [Return]
      split <;> rfl
    · rw [Return]
      · split <;> rfl
      all_goals simp
  · rw [Extract, getField]
    split
    · split <;> rfl
    · rfl
  · rw [SetBlockEx]
    split
    · rfl
    · split <;> rfl
  · rw [SetBlockEx]
    split
    · rfl
    · split <;> rfl
  · rw [SetBlock, SetBlockEx]
    split
    · rfl
    · split <;> rfl

end LlgoSsa
